import Mathlib

/-!
Verification of the CHURP shareholder module
(`secret-sharing/src/churp/shareholder.rs`).

The module is generic over a prime-order group `G` with scalar field
`G::Scalar`; we embed it with two type parameters `F` (the scalar field)
and `G` (the group, written additively, so the group identity is `0` and
scalar multiplication is `•`).

The polynomial and verification-matrix types live in the `vss` module of
the same crate, which is not part of the sources here; they are modelled
from the spec as lists of coefficients and lists of rows of commitments.
The hash-to-field primitive is an external cryptographic collaborator and
is taken as an abstract function parameter.
-/

namespace Churp

/-- Error type of the churp module (`super::Error`): the five error
variants used by `shareholder.rs`. -/
inductive Error where
  | ShareholderEncodingFailed
  | ZeroValueShareholder
  | PolynomialDegreeMismatch
  | VerificationMatrixZeroHoleMismatch
  | VerificationMatrixDimensionMismatch
deriving DecidableEq, Repr

/-- Modelled from the spec: pointwise addition of coefficient lists in the
field, the shorter list padded implicitly with zeros (so that adding two
polynomials of matching degree is coefficient-by-coefficient addition).
This models the `Add` implementations of `vss::polynomial::Polynomial` and
of the rows of `vss::matrix::VerificationMatrix`, which are not under the
given sources. -/
def zipAdd {α : Type} [Add α] : List α → List α → List α
  | [], ys => ys
  | xs, [] => xs
  | x :: xs, y :: ys => (x + y) :: zipAdd xs ys

/-- Modelled from the spec: a polynomial over the scalar field, held as
its list of coefficients `a` (index `i` holds the coefficient of `x^i`).
The spec requires evaluation at a point, extraction of the coefficient at
a given index (possibly absent), a degree query, and addition;
`vss::polynomial::Polynomial` is not under the given sources. -/
structure Polynomial (F : Type) where
  a : List F
deriving DecidableEq, Repr

/-- Modelled from the spec: the degree query of the polynomial, the number
of coefficients minus one (`Nat` subtraction saturates at zero, matching a
`usize` saturating subtraction). -/
def Polynomial.degree {F : Type} (p : Polynomial F) : Nat :=
  p.a.length - 1

/-- Modelled from the spec: evaluation of the polynomial at a point, by
Horner's rule. -/
def Polynomial.eval {F : Type} [CommRing F] (p : Polynomial F) (x : F) : F :=
  p.a.foldr (fun c acc => c + x * acc) 0

/-- Modelled from the spec: extraction of the coefficient at a given
index, possibly absent. -/
def Polynomial.coefficient {F : Type} (p : Polynomial F) (i : Nat) : Option F :=
  p.a.get? i

/-- Modelled from the spec: pointwise coefficient addition of two
polynomials. -/
def Polynomial.add {F : Type} [Add F] (p q : Polynomial F) : Polynomial F :=
  ⟨zipAdd p.a q.a⟩

/-- Modelled from the spec: a verification matrix over the group, held as
its list of rows of committed group elements. The spec requires a
zero-hole predicate, a dimensions query and addition;
`vss::matrix::VerificationMatrix` is not under the given sources. -/
structure VerificationMatrix (G : Type) where
  m : List (List G)
deriving DecidableEq, Repr

/-- Modelled from the spec: the dimensions query, a comparable structural
descriptor (number of rows, length of the first row). -/
def VerificationMatrix.dimensions {G : Type} (vm : VerificationMatrix G) : Nat × Nat :=
  (vm.m.length, ((vm.m.head?).map List.length).getD 0)

/-- Modelled from the spec: the zero-hole predicate, asserting that the
committed polynomial has a zero constant term, i.e. the top-left
commitment is the group identity. -/
def VerificationMatrix.is_zero_hole {G : Type} [Zero G] [DecidableEq G]
    (vm : VerificationMatrix G) : Bool :=
  match vm.m with
  | (g :: _) :: _ => g = 0
  | _ => false

/-- Modelled from the spec: elementwise addition of the row lists of two
verification matrices. -/
def matrixRowsAdd {G : Type} [Add G] : List (List G) → List (List G) → List (List G)
  | [], ys => ys
  | xs, [] => xs
  | r :: xs, s :: ys => zipAdd r s :: matrixRowsAdd xs ys

/-- Modelled from the spec: homomorphic addition of two verification
matrices of matching dimensions, elementwise over the group. -/
def VerificationMatrix.add {G : Type} [Add G] (v w : VerificationMatrix G) :
    VerificationMatrix G :=
  ⟨matrixRowsAdd v.m w.m⟩

/-- Shareholder identifier: an opaque 32-byte value
(`ShareholderId(pub [u8; 32])`), bytes modelled as naturals below 256. -/
structure ShareholderId where
  bytes : List Nat
  len_eq : bytes.length = 32

/-- Domain separation tag for encoding shareholder identifiers:
the ASCII bytes of the string literal `b"shareholder"`. -/
def SHAREHOLDER_ENC_DST : List Nat :=
  [115, 104, 97, 114, 101, 104, 111, 108, 100, 101, 114]

/-- Encodes the given shareholder ID to a non-zero element of the prime
field (`ShareholderId::encode`). The hash-to-field primitive
`H::hash_to_field` is an external collaborator, passed as the abstract
function `hash_to_field` over an abstract error type `ε`. -/
def ShareholderId.encode {F ε : Type} [Zero F] [DecidableEq F]
    (hash_to_field : List Nat → List Nat → Except ε F)
    (id : ShareholderId) : Except Error F :=
  match hash_to_field id.bytes SHAREHOLDER_ENC_DST with
  | .error _ => .error .ShareholderEncodingFailed
  | .ok s => if s = 0 then .error .ZeroValueShareholder else .ok s

/-- Secret share of the shared secret (`SecretShare<G>`): a secret
polynomial paired with a verification matrix. -/
structure SecretShare (F G : Type) where
  p : Polynomial F
  vm : VerificationMatrix G
deriving DecidableEq, Repr

/-- Creates a new secret share (`SecretShare::new`): pairs the polynomial
and the verification matrix with no validation. -/
def SecretShare.new {F G : Type} (p : Polynomial F) (vm : VerificationMatrix G) :
    SecretShare F G :=
  ⟨p, vm⟩

/-- Returns the polynomial (`SecretShare::polynomial`). -/
def SecretShare.polynomial {F G : Type} (s : SecretShare F G) : Polynomial F :=
  s.p

/-- Returns the verification matrix (`SecretShare::verification_matrix`). -/
def SecretShare.verification_matrix {F G : Type} (s : SecretShare F G) :
    VerificationMatrix G :=
  s.vm

/-- Shareholder (`Shareholder<G>`): wraps a secret share. -/
structure Shareholder (F G : Type) where
  share : SecretShare F G
deriving DecidableEq, Repr

/-- Creates a new shareholder (`Shareholder::new`), via
`SecretShare::new(p, vm).into()`. -/
def Shareholder.new {F G : Type} (p : Polynomial F) (vm : VerificationMatrix G) :
    Shareholder F G :=
  ⟨SecretShare.new p vm⟩

/-- Returns the secret share (`Shareholder::secret_share`). -/
def Shareholder.secret_share {F G : Type} (sh : Shareholder F G) : SecretShare F G :=
  sh.share

/-- Returns the polynomial (`Shareholder::polynomial`). -/
def Shareholder.polynomial {F G : Type} (sh : Shareholder F G) : Polynomial F :=
  sh.share.p

/-- Returns the verification matrix (`Shareholder::verification_matrix`). -/
def Shareholder.verification_matrix {F G : Type} (sh : Shareholder F G) :
    VerificationMatrix G :=
  sh.share.vm

/-- Computes the switch point for the given shareholder
(`Shareholder::switch_point`): evaluates the secret polynomial at `id`. -/
def Shareholder.switch_point {F G : Type} [CommRing F] (sh : Shareholder F G)
    (id : F) : F :=
  sh.share.p.eval id

/-- Computes a key share from the given hash (`Shareholder::key_share`):
the hash scaled by the coefficient at index 0, or the group identity when
that coefficient is absent. -/
def Shareholder.key_share {F G : Type} [Zero G] [SMul F G] (sh : Shareholder F G)
    (hash : G) : G :=
  ((sh.share.p.coefficient 0).map (fun s => s • hash)).getD 0

/-- Creates a new shareholder with a proactivized secret polynomial
(`Shareholder::proactivize`): checks the degree of the update polynomial,
the zero hole of the update matrix and its dimensions, then combines the
update with the current share. -/
def Shareholder.proactivize {F G : Type} [Add F] [Add G] [Zero G] [DecidableEq G]
    (sh : Shareholder F G) (p : Polynomial F) (vm : VerificationMatrix G) :
    Except Error (Shareholder F G) :=
  if p.degree ≠ sh.share.p.degree then
    .error .PolynomialDegreeMismatch
  else if ¬ vm.is_zero_hole then
    .error .VerificationMatrixZeroHoleMismatch
  else if vm.dimensions ≠ sh.share.vm.dimensions then
    .error .VerificationMatrixDimensionMismatch
  else
    .ok (Shareholder.new (p.add sh.share.p) (vm.add sh.share.vm))

/-!
Helper lemmas shared by the claim theorems.
-/

/-- When all three proactivization checks pass, `proactivize` returns the
shareholder built from the componentwise sums. -/
lemma proactivize_eq_ok {F G : Type} [Add F] [Add G] [Zero G] [DecidableEq G]
    (sh : Shareholder F G) (p : Polynomial F) (vm : VerificationMatrix G)
    (hd : p.degree = sh.polynomial.degree)
    (hz : vm.is_zero_hole = true)
    (hdim : vm.dimensions = sh.verification_matrix.dimensions) :
    sh.proactivize p vm =
      .ok (Shareholder.new (p.add sh.polynomial) (vm.add sh.verification_matrix)) := by
  unfold Shareholder.proactivize
  unfold Shareholder.polynomial at hd
  unfold Shareholder.verification_matrix at hdim
  simp [Shareholder.polynomial, Shareholder.verification_matrix, hd, hz, hdim]

/-- Concrete field and group for witnesses: the scalar field `ZMod 97`
acting on itself by multiplication. -/
def shW : Shareholder (ZMod 97) (ZMod 97) :=
  Shareholder.new ⟨[1, 2]⟩ ⟨[[0, 1], [2, 3]]⟩

/-- A shareholder with an empty (degenerate) polynomial, for the
boundary case of `key_share`. -/
def shEmptyW : Shareholder (ZMod 97) (ZMod 97) :=
  Shareholder.new ⟨[]⟩ ⟨[]⟩

/-- A zero-hole update polynomial of degree 1 for `shW`. -/
def pUW : Polynomial (ZMod 97) := ⟨[0, 4]⟩

/-- A zero-hole update matrix of matching dimensions for `shW`. -/
def vmUW : VerificationMatrix (ZMod 97) := ⟨[[0, 5], [6, 7]]⟩

/-- An update polynomial of mismatched degree for `shW`. -/
def pBadW : Polynomial (ZMod 97) := ⟨[3]⟩

/-- An update polynomial of matching degree for `shW`. -/
def pOkW : Polynomial (ZMod 97) := ⟨[4, 5]⟩

/-- An update matrix that is not zero-hole and has mismatched
dimensions for `shW`. -/
def vmBadW : VerificationMatrix (ZMod 97) := ⟨[[5]]⟩

/-- A concrete hash-to-field instantiation for witnesses. -/
def hashW : List Nat → List Nat → Except Unit (ZMod 97) := fun _ _ => .ok 5

/-- A concrete 32-byte shareholder identifier. -/
def idW1 : ShareholderId := ⟨List.replicate 32 7, by simp⟩

/-- A second identifier with the same bytes as `idW1`. -/
def idW2 : ShareholderId := ⟨List.replicate 32 7, by simp⟩

/-!
Claim theorems.
-/

/-- Claim C1: for a shareholder whose polynomial has degree `d`,
`proactivize(p, vm)` succeeds if and only if `p.degree() == d`,
`vm.is_zero_hole()` holds and `vm.dimensions()` equals the dimensions of
the current verification matrix; each error case is exactly
characterized: `PolynomialDegreeMismatch` iff the degree differs,
`VerificationMatrixZeroHoleMismatch` iff the degree matches but the zero
hole fails, `VerificationMatrixDimensionMismatch` iff degree and zero
hole pass but the dimensions differ. `proactivize` takes the shareholder
by shared reference and is embedded as a pure function, so the original
state is unchanged on every path. -/
theorem proactivize_success_iff_and_errors {F G : Type}
    [Add F] [Add G] [Zero G] [DecidableEq G]
    (sh : Shareholder F G) (p : Polynomial F) (vm : VerificationMatrix G) :
    ((∃ sh2, sh.proactivize p vm = .ok sh2) ↔
      (p.degree = sh.polynomial.degree ∧ vm.is_zero_hole = true ∧
        vm.dimensions = sh.verification_matrix.dimensions)) ∧
    (sh.proactivize p vm = .error .PolynomialDegreeMismatch ↔
      p.degree ≠ sh.polynomial.degree) ∧
    (sh.proactivize p vm = .error .VerificationMatrixZeroHoleMismatch ↔
      (p.degree = sh.polynomial.degree ∧ vm.is_zero_hole = false)) ∧
    (sh.proactivize p vm = .error .VerificationMatrixDimensionMismatch ↔
      (p.degree = sh.polynomial.degree ∧ vm.is_zero_hole = true ∧
        vm.dimensions ≠ sh.verification_matrix.dimensions)) := by
  unfold Shareholder.proactivize Shareholder.polynomial Shareholder.verification_matrix
  refine ⟨?_, ?_, ?_, ?_⟩ <;> split_ifs with h1 h2 h3 <;> simp_all

/-- Claim C2: for every shareholder and every update passing the three
checks, `proactivize` returns `Ok` of a newly constructed shareholder
whose polynomial is the pointwise sum of the update polynomial and the
current polynomial and whose verification matrix is the sum of the update
matrix and the current matrix; the original shareholder is not mutated
(the embedding is a pure function). -/
theorem proactivize_success_value {F G : Type}
    [Add F] [Add G] [Zero G] [DecidableEq G]
    (sh : Shareholder F G) (p : Polynomial F) (vm : VerificationMatrix G)
    (hd : p.degree = sh.polynomial.degree)
    (hz : vm.is_zero_hole = true)
    (hdim : vm.dimensions = sh.verification_matrix.dimensions) :
    sh.proactivize p vm =
      .ok (Shareholder.new (p.add sh.polynomial) (vm.add sh.verification_matrix)) ∧
    ∀ sh2, sh.proactivize p vm = .ok sh2 →
      sh2.polynomial = p.add sh.polynomial ∧
      sh2.verification_matrix = vm.add sh.verification_matrix := by
  have h := proactivize_eq_ok sh p vm hd hz hdim
  refine ⟨h, fun sh2 h2 => ?_⟩
  rw [h] at h2
  cases h2
  exact ⟨rfl, rfl⟩

/-- Claim C2 witness: a concrete proactivization over `ZMod 97`. -/
theorem proactivize_success_value_witness :
    shW.proactivize pUW vmUW =
      .ok (Shareholder.new (pUW.add shW.polynomial) (vmUW.add shW.verification_matrix)) :=
  (proactivize_success_value shW pUW vmUW (by decide) (by decide) (by decide)).1

/-- Claim C6: `switch_point(id)` equals direct evaluation of the
polynomial of the shareholder at `id`; it is a pure function of the
stored polynomial and the given scalar, with no validation of `id`. -/
theorem switch_point_eq_eval {F G : Type} [CommRing F]
    (sh : Shareholder F G) (id : F) :
    sh.switch_point id = sh.polynomial.eval id := rfl

/-- Claim C8: construction is unvalidated and round-trips: `new` always
succeeds (it is total), and the accessors return exactly the supplied
polynomial and verification matrix; no operation mutates these fields
(all embedded operations are pure). -/
theorem new_roundtrip {F G : Type} (p : Polynomial F) (vm : VerificationMatrix G) :
    (Shareholder.new p vm).polynomial = p ∧
    (Shareholder.new p vm).verification_matrix = vm ∧
    (SecretShare.new p vm).polynomial = p ∧
    (SecretShare.new p vm).verification_matrix = vm ∧
    (Shareholder.new p vm).secret_share = SecretShare.new p vm :=
  ⟨rfl, rfl, rfl, rfl, rfl⟩

/-- Claim C3: proactivization preserves the secret: if the polynomial of
the shareholder has constant coefficient `s` and the update polynomial
has constant coefficient `0` (with an update passing the three checks),
then `proactivize` succeeds and the resulting polynomial has constant
coefficient exactly `s`. -/
theorem proactivize_preserves_secret {F G : Type}
    [AddZeroClass F] [Add G] [Zero G] [DecidableEq G]
    (sh : Shareholder F G) (p : Polynomial F) (vm : VerificationMatrix G) (s : F)
    (hs : sh.polynomial.coefficient 0 = some s)
    (h0 : p.coefficient 0 = some (0 : F))
    (hd : p.degree = sh.polynomial.degree)
    (hz : vm.is_zero_hole = true)
    (hdim : vm.dimensions = sh.verification_matrix.dimensions) :
    ∃ sh2, sh.proactivize p vm = .ok sh2 ∧
      sh2.polynomial.coefficient 0 = some s := by
  refine ⟨_, proactivize_eq_ok sh p vm hd hz hdim, ?_⟩
  rcases p with ⟨pa⟩
  rcases sh with ⟨⟨⟨sa⟩, svm⟩⟩
  unfold Shareholder.polynomial at hs
  cases pa with
  | nil => simp [Polynomial.coefficient] at h0
  | cons c t =>
    cases sa with
    | nil => simp [Polynomial.coefficient] at hs
    | cons c2 t2 =>
      simp [Polynomial.coefficient] at hs h0
      subst hs
      subst h0
      simp [Shareholder.new, SecretShare.new, Shareholder.polynomial,
        Polynomial.add, zipAdd, Polynomial.coefficient]

/-- Claim C3 witness: a concrete secret-preserving proactivization over
`ZMod 97`; the constant coefficient of `shW` is `1` and the update has
constant coefficient `0`. -/
theorem proactivize_preserves_secret_witness :
    ∃ sh2, shW.proactivize pUW vmUW = .ok sh2 ∧
      sh2.polynomial.coefficient 0 = some (1 : ZMod 97) :=
  proactivize_preserves_secret shW pUW vmUW 1 rfl rfl (by decide) (by decide)
    (by decide)

/-- Claim C4: `encode` returns `ShareholderEncodingFailed` iff the
hash-to-field primitive errors, `ZeroValueShareholder` iff hash-to-field
succeeds with the zero element, and `Ok s` iff hash-to-field returns `s`
and `s` is non-zero — so no successful return ever carries the zero
element. -/
theorem encode_cases {F ε : Type} [Zero F] [DecidableEq F]
    (hash_to_field : List Nat → List Nat → Except ε F) (id : ShareholderId) :
    (ShareholderId.encode hash_to_field id = .error .ShareholderEncodingFailed ↔
      ∃ e, hash_to_field id.bytes SHAREHOLDER_ENC_DST = .error e) ∧
    (ShareholderId.encode hash_to_field id = .error .ZeroValueShareholder ↔
      hash_to_field id.bytes SHAREHOLDER_ENC_DST = .ok (0 : F)) ∧
    (∀ s : F, ShareholderId.encode hash_to_field id = .ok s ↔
      (hash_to_field id.bytes SHAREHOLDER_ENC_DST = .ok s ∧ s ≠ 0)) := by
  unfold ShareholderId.encode
  cases hres : hash_to_field id.bytes SHAREHOLDER_ENC_DST with
  | error e => simp
  | ok t =>
    refine ⟨?_, ?_, fun s => ?_⟩
    · by_cases h0 : t = 0 <;> simp [h0]
    · by_cases h0 : t = 0 <;> simp [h0]
    · by_cases h0 : t = 0
      · subst h0
        simp
        rintro rfl
        rfl
      · simp [h0]
        intro h
        subst h
        exact h0

/-- Claim C5: `key_share(hash)` returns `hash` scaled by the coefficient
of the polynomial at index 0 whenever that coefficient is present, and
the group identity element whenever it is absent; `key_share` is total
and pure. -/
theorem key_share_spec {F G : Type} [Zero G] [SMul F G]
    (sh : Shareholder F G) (hash : G) :
    (∀ s, sh.polynomial.coefficient 0 = some s → sh.key_share hash = s • hash) ∧
    (sh.polynomial.coefficient 0 = none → sh.key_share hash = (0 : G)) := by
  unfold Shareholder.key_share Shareholder.polynomial
  constructor
  · intro s hs
    rw [hs]
    rfl
  · intro h
    rw [h]
    rfl

/-- Claim C5 witness: the key share of `shW` (constant coefficient `1`)
and of the degenerate `shEmptyW` at the hash `13`. -/
theorem key_share_spec_witness :
    shW.key_share (13 : ZMod 97) = (1 : ZMod 97) • (13 : ZMod 97) ∧
    shEmptyW.key_share (13 : ZMod 97) = 0 :=
  ⟨(key_share_spec shW 13).1 1 rfl, (key_share_spec shEmptyW 13).2 rfl⟩

/-- Claim C7: `encode` is deterministic: two identifiers with the same
bytes yield the same result under the same hash-to-field instantiation
(and in particular repeated calls on the same identifier agree). -/
theorem encode_deterministic {F ε : Type} [Zero F] [DecidableEq F]
    (hash_to_field : List Nat → List Nat → Except ε F)
    (id1 id2 : ShareholderId) (hb : id1.bytes = id2.bytes) :
    ShareholderId.encode hash_to_field id1 =
      ShareholderId.encode hash_to_field id2 := by
  unfold ShareholderId.encode
  rw [hb]

/-- Claim C7 witness: two concrete identifiers with equal bytes encode
identically. -/
theorem encode_deterministic_witness :
    ShareholderId.encode hashW idW1 = ShareholderId.encode hashW idW2 :=
  encode_deterministic hashW idW1 idW2 rfl

/-- Claim C9: the proactivization checks have a fixed priority: a degree
mismatch yields `PolynomialDegreeMismatch` no matter what the other
checks would say, and when the degree matches, a zero-hole failure yields
`VerificationMatrixZeroHoleMismatch` even when the dimensions also
mismatch. -/
theorem proactivize_error_priority {F G : Type}
    [Add F] [Add G] [Zero G] [DecidableEq G]
    (sh : Shareholder F G) (p : Polynomial F) (vm : VerificationMatrix G) :
    (p.degree ≠ sh.polynomial.degree →
      sh.proactivize p vm = .error .PolynomialDegreeMismatch) ∧
    (p.degree = sh.polynomial.degree → vm.is_zero_hole = false →
      sh.proactivize p vm = .error .VerificationMatrixZeroHoleMismatch) := by
  unfold Shareholder.proactivize Shareholder.polynomial
  constructor
  · intro h
    rw [if_pos h]
  · intro h1 h2
    rw [if_neg (by simp [h1]), if_pos (by simp [h2])]

/-- Claim C9 witness: an update failing both the degree and the zero-hole
check (and the dimension check) reports the degree error, and an update
failing both the zero-hole and the dimension check reports the zero-hole
error. -/
theorem proactivize_error_priority_witness :
    shW.proactivize pBadW vmBadW = .error .PolynomialDegreeMismatch ∧
    shW.proactivize pOkW vmBadW = .error .VerificationMatrixZeroHoleMismatch :=
  ⟨(proactivize_error_priority shW pBadW vmBadW).1 (by decide),
   (proactivize_error_priority shW pOkW vmBadW).2 (by decide) (by decide)⟩

/-- Claim C10: `encode` always invokes the hash-to-field primitive with
the fixed domain-separation tag equal to the ASCII bytes of the string
"shareholder": the tag constant equals those bytes, and `encode` equals
the zero-checked result of hashing the bytes of the identifier with that
tag, so the tag never varies per call and equal bytes map to the same
result. -/
theorem encode_fixed_dst {F ε : Type} [Zero F] [DecidableEq F]
    (hash_to_field : List Nat → List Nat → Except ε F) (id : ShareholderId) :
    SHAREHOLDER_ENC_DST = "shareholder".data.map Char.toNat ∧
    ShareholderId.encode hash_to_field id =
      (match hash_to_field id.bytes ("shareholder".data.map Char.toNat) with
        | .error _ => .error Error.ShareholderEncodingFailed
        | .ok s => if s = 0 then .error Error.ZeroValueShareholder else .ok s) := by
  have hdst : SHAREHOLDER_ENC_DST = "shareholder".data.map Char.toNat := by decide
  refine ⟨hdst, ?_⟩
  rw [← hdst]
  rfl

end Churp
